import Mathlib

set_option maxRecDepth 65536

/-!
Verification development for the agent orchestration runtime of the
`claude_code_python` repository.

The embedding models:
* the file-mutation guard layer (`EditTool.validate_input`, `EditTool.execute`,
  `WriteTool.execute`, `ReadTool.execute`) over an explicit filesystem state
  (a map from absolute path to file content and modification time) and a
  read-timestamp ledger;
* the bounded tool-calling conversation loop (`OpenAIClient.query`) together
  with its rate-limit retry loop;
* the parallel fan-out and synthesis protocol
  (`ParallelExecutor.execute_parallel_tasks`, `ParallelExecutor.synthesize_results`,
  `AgentTool.execute`).

File contents are modelled as lists of characters (Python strings), wall-clock
modification times as naturals, and the remote model API as an oracle indexed
by iteration / attempt number.
-/

namespace ClaudeCodePython

/-- Characters of a Python string (file contents, search patterns). -/
abbrev Str := List Char

/-! ## String scanning primitives

These model the Python `str` operations used by the edit tool:
`in` (substring test), `str.count` (non-overlapping occurrence count)
and `str.replace(old, new, 1)` (replace the first occurrence).
All are structurally recursive so that concrete instances evaluate
by `decide`. -/

/-- Test whether `pat` is a prefix of `s`. -/
def isPref : Str → Str → Bool
  | [], _ => true
  | _ :: _, [] => false
  | a :: as, b :: bs => a = b && isPref as bs

/-- Substring test: models Python `pat in s`. -/
def hasOccur (pat : Str) : Str → Bool
  | [] => decide (pat = [])
  | c :: t => isPref pat (c :: t) || hasOccur pat t

/-- Worker for `countOcc`: scans the string left to right; after a match the
next `pat.length - 1` characters (plus the current one) are skipped, which is
exactly the non-overlapping scan performed by Python `str.count`. -/
def countOccGo (pat : Str) : Nat → Str → Nat
  | _, [] => 0
  | n + 1, _ :: t => countOccGo pat n t
  | 0, c :: t =>
    if isPref pat (c :: t) = true ∧ pat ≠ [] then 1 + countOccGo pat (pat.length - 1) t
    else countOccGo pat 0 t

/-- Non-overlapping occurrence count: models Python `s.count(pat)` for a
non-empty `pat` (the edit tool never counts an empty pattern: empty
`old_string` is diverted to the file-creation branch beforehand). -/
def countOcc (pat s : Str) : Nat := countOccGo pat 0 s

/-- Replace the first occurrence of `pat` by `repl`: models Python
`s.replace(pat, repl, 1)` (including the empty-pattern case, where Python
prepends `repl`). -/
def replaceOnce (pat repl : Str) : Str → Str
  | [] => if pat = [] then repl else []
  | c :: t =>
    if pat = [] then repl ++ c :: t
    else if isPref pat (c :: t) = true then repl ++ t.drop (pat.length - 1)
    else c :: replaceOnce pat repl t

/-- Split into lines keeping the terminators: models Python `readlines`. -/
def splitLines : Str → List Str
  | [] => []
  | c :: t =>
    if c = '\n' then [c] :: splitLines t
    else
      match splitLines t with
      | [] => [[c]]
      | l :: ls => (c :: l) :: ls

/-! ## Paths, filesystem state and the read-timestamp ledger -/

/-- Models `os.path.isabs` for POSIX paths. -/
def isAbs (p : String) : Bool :=
  match p.data with
  | [] => false
  | c :: _ => c = '/'

/-- Models `os.path.join(os.getcwd(), file_path)` guarded by `os.path.isabs`:
the resolution performed at the top of each tool. -/
def resolvePath (cwd p : String) : String :=
  if isAbs p then p else cwd ++ "/" ++ p

/-- Suffix test over characters (used for extension checks). -/
def endsWithList (pat s : Str) : Bool := isPref pat.reverse s.reverse

/-- Models `full_file_path.endswith(".ipynb")`. -/
def isNotebook (p : String) : Bool := endsWithList ".ipynb".data p.data

/-- ASCII lower-casing of one character (models `str.lower` on the path /
error text characters the tools inspect). -/
def lowerCh (c : Char) : Char :=
  if 65 ≤ c.toNat ∧ c.toNat ≤ 90 then Char.ofNat (c.toNat + 32) else c

/-- ASCII lower-casing of a character list. -/
def lowerStr (s : Str) : Str := s.map lowerCh

/-- The image extensions recognised by `ReadTool` (`IMAGE_EXTENSIONS`). -/
def imageExts : List String := [".png", ".jpg", ".jpeg", ".gif", ".bmp", ".webp"]

/-- Models `ReadTool._is_image_file`: the lower-cased extension of the path is
one of `IMAGE_EXTENSIONS` (checked here as a lower-cased suffix test). -/
def isImageFile (p : String) : Bool :=
  imageExts.any fun e => endsWithList e.data (lowerStr p.data)

/-- One on-disk file: its content and its modification time. -/
structure File where
  content : Str
  mtime : Nat
deriving DecidableEq

/-- Filesystem state: the file (if any) at each absolute path, plus the
current wall clock, used as the modification time of freshly written files. -/
structure FS where
  files : String → Option File
  now : Nat

/-- The read-timestamp ledger (`read_file_timestamps`): absolute path to the
modification time observed at the most recent successful read. -/
abbrev Ledger := String → Option Nat

/-- Update the ledger at one path (`read_file_timestamps[full] = mtime`). -/
def ledgerSet (L : Ledger) (p : String) (t : Nat) : Ledger :=
  fun q => if q = p then some t else L q

/-- Write `c` to path `p`: the new file carries the current clock as its
modification time. -/
def FS.write (fs : FS) (p : String) (c : Str) : FS :=
  ⟨fun q => if q = p then some ⟨c, fs.now⟩ else fs.files q, fs.now⟩

/-! ## Guard-layer error messages (verbatim from the source) -/

def noopMsg : String :=
  "No changes to make: old_string and new_string are exactly the same."

def alreadyExistsMsg : String := "Cannot create new file - file already exists."

def fileMissingMsg : String := "File does not exist."

def notebookMsg : String := "File is a Jupyter Notebook. Use a notebook edit tool instead."

def unreadMsg : String :=
  "File has not been read yet. Read it first before writing to it."

def staleMsg : String :=
  "File has been modified since read, either by the user or by a linter. Read it again before attempting to write it."

def notFoundMsg : String := "String to replace not found in file."

def ambiguousMsg (n : Nat) : String :=
  "Found " ++ toString n ++ " matches of the string to replace. For safety, this tool only supports replacing exactly one occurrence at a time. Add more lines of context to your edit and try again."

/-! ## EditTool -/

/-- Models `EditTool.validate_input`.  Returns `some errorMessage` when the
validation fails and `none` when the edit may proceed.  The read-timestamp
check mirrors Python truthiness: `if not read_timestamp` fires both when the
ledger has no entry for the path and when the recorded timestamp is zero. -/
def editValidate (cwd path : String) (old new_ : Str) (ledger : Ledger) (fs : FS) :
    Option String :=
  if old = new_ then some noopMsg
  else
    let full := resolvePath cwd path
    if (fs.files full).isSome = true ∧ old = [] then some alreadyExistsMsg
    else if (fs.files full).isNone = true ∧ old = [] then none
    else
      match fs.files full with
      | none => some fileMissingMsg
      | some file =>
        if isNotebook full = true then some notebookMsg
        else if (ledger full).getD 0 = 0 then some unreadMsg
        else if (ledger full).getD 0 < file.mtime then some staleMsg
        else if hasOccur old file.content = false then some notFoundMsg
        else if 1 < countOcc old file.content then
          some (ambiguousMsg (countOcc old file.content))
        else none

/-- Result dictionary of `EditTool.execute` (the fields the claims consult). -/
structure EditOutcome where
  success : Bool
  error : Option String
  updatedFile : Option Str
deriving DecidableEq

/-- Models `EditTool.execute`: validate, then apply the replacement, persist
the updated content and record the new modification time in the ledger.  The
returned triple carries the result payload, the filesystem after the call and
the ledger after the call. -/
def editExecute (cwd path : String) (old new_ : Str) (ledger : Ledger) (fs : FS) :
    EditOutcome × FS × Ledger :=
  match editValidate cwd path old new_ ledger fs with
  | some err => (⟨false, some err, none⟩, fs, ledger)
  | none =>
    let full := resolvePath cwd path
    let original := match fs.files full with | some f => f.content | none => []
    let updated := if old = [] then new_ else replaceOnce old new_ original
    (⟨true, none, some updated⟩, fs.write full updated,
      ledgerSet ledger full fs.now)

/-! ## WriteTool -/

/-- Result dictionary of `WriteTool.execute` (the fields the claims consult);
`wtype` is the `"type"` field (`"create"` or `"update"`). -/
structure WriteOutcome where
  success : Bool
  error : Option String
  wtype : Option String
deriving DecidableEq

/-- Models `WriteTool.execute`: an existing target runs the notebook, unread
(Python truthiness: missing or zero ledger entry) and staleness checks and is
then overwritten; a missing target is created with no checks.  On success the
ledger records the new modification time of the written file. -/
def writeExecute (cwd path : String) (content_ : Str) (ledger : Ledger) (fs : FS) :
    WriteOutcome × FS × Ledger :=
  let full := resolvePath cwd path
  match fs.files full with
  | some file =>
    if isNotebook full = true then (⟨false, some notebookMsg, none⟩, fs, ledger)
    else if (ledger full).getD 0 = 0 then (⟨false, some unreadMsg, none⟩, fs, ledger)
    else if (ledger full).getD 0 < file.mtime then (⟨false, some staleMsg, none⟩, fs, ledger)
    else (⟨true, none, some "update"⟩, fs.write full content_,
      ledgerSet ledger full fs.now)
  | none =>
    (⟨true, none, some "create"⟩, fs.write full content_,
      ledgerSet ledger full fs.now)

/-! ## ReadTool -/

/-- The `MAX_OUTPUT_SIZE` limit (0.25 MB) in bytes. -/
def maxOutputSize : Nat := 262144

/-- The `MAX_IMAGE_SIZE` limit (3.75 MB) in bytes. -/
def maxImageSize : Nat := 3932160

/-- Models the offset / limit handling of `ReadTool._read_text_file`:
`readlines`, slice, join.  Python truthiness again: an offset or limit of 0
behaves like an absent one. -/
def selectLines (c : Str) (offset limit : Option Nat) : Str :=
  let lines := splitLines c
  let start := if offset.getD 0 = 0 then 0 else offset.getD 0 - 1
  let sel := if limit.getD 0 = 0 then lines.drop start
    else (lines.drop start).take (limit.getD 0)
  sel.flatten

/-- Result dictionary of `ReadTool.execute` (the fields the claims consult):
`rtype` is the `"type"` field; `content` is the text payload, absent for the
image branch (whose payload is a base64 blob, not the file text).  The size
error texts are abbreviated (the source interpolates the sizes into them and
no claim depends on their wording). -/
structure ReadOutcome where
  success : Bool
  error : Option String
  rtype : Option String
  content : Option Str
deriving DecidableEq

/-- Models `ReadTool.execute`: image extensions return a base64 payload (no
text content), oversized files are refused, otherwise the selected lines are
returned; each successful read records the modification time in the ledger. -/
def readExecute (cwd path : String) (offset limit : Option Nat)
    (ledger : Ledger) (fs : FS) : ReadOutcome × Ledger :=
  let full := resolvePath cwd path
  match fs.files full with
  | none => (⟨false, some fileMissingMsg, none, none⟩, ledger)
  | some file =>
    if isImageFile full = true then
      if maxImageSize < file.content.length then
        (⟨false, some "Image file too large.", none, none⟩, ledger)
      else (⟨true, none, some "image", none⟩, ledgerSet ledger full file.mtime)
    else if maxOutputSize < file.content.length ∧ offset.getD 0 = 0 ∧ limit.getD 0 = 0 then
      (⟨false, some "File too large.", none, none⟩, ledger)
    else
      let content := selectLines file.content offset limit
      if maxOutputSize < content.length then
        (⟨false, some "File content too large.", none, none⟩, ledger)
      else (⟨true, none, some "text", some content⟩, ledgerSet ledger full file.mtime)

/-! ## OpenAIClient.query: the bounded conversation loop

The remote model API is treated as a black box; it is modelled as an oracle.  For the retry
loop the oracle maps the attempt number to the outcome of one
`chat.completions.create` call (an exception or a response); for the
iteration loop it maps the iteration number to the response obtained for that
iteration. -/

/-- One tool call requested by the model. -/
structure ToolCallRec where
  id : String
  name : String
  arguments : String
deriving DecidableEq

/-- One model response (`response.choices[0].message` plus usage). -/
structure ModelResponse where
  content : Option String
  toolCalls : List ToolCallRec
  totalTokens : Nat
  finishReason : String
deriving DecidableEq

/-- The dictionary returned by `OpenAIClient.query`. -/
structure QueryResult where
  content : String
  totalTokens : Nat
  toolUseCount : Nat
  finishReason : String
deriving DecidableEq

/-- The sentinel returned when the iteration budget is exhausted (and by the
`break` taken when tool calls arrive without an executor). -/
def maxIterSentinel (tok tools : Nat) : QueryResult :=
  ⟨"Maximum tool call iterations reached", tok, tools, "max_iterations"⟩

/-- An exception raised by the model call: `status_code` attribute (if any)
and `str(e)`. -/
structure ApiError where
  statusCode : Option Nat
  message : String
deriving DecidableEq

/-- Models the rate-limit classification in `OpenAIClient.query`:
`status == 429`, or the lower-cased exception text contains
`"rate limit"` or `"max rpm"`. -/
def isRateLimited (e : ApiError) : Bool :=
  decide (e.statusCode = some 429)
    || hasOccur "rate limit".data (lowerStr e.message.data)
    || hasOccur "max rpm".data (lowerStr e.message.data)

/-- The retry budget `retry_attempts = 10`. -/
def retryAttempts : Nat := 10

/-- The base delay `backoff_seconds = 2.0` (whole seconds). -/
def backoffSeconds : Nat := 2

/-- Models the `for attempt in range(retry_attempts)` retry loop around the
model call.  `oracle` gives the outcome of each attempt, `attempt` is the loop
index, `remaining` the attempts left in the range, and `delays` accumulates
the `await asyncio.sleep` durations (in seconds) performed so far.  The
`remaining = 0` fallthrough models the `response is None` RuntimeError after
the loop (unreachable when started with the full budget). -/
def retryLoop (oracle : Nat → Except ApiError ModelResponse) :
    Nat → Nat → List Nat → Except ApiError ModelResponse × List Nat
  | _, 0, delays => (.error ⟨none, "Failed to obtain response from OpenAI after retries"⟩, delays)
  | attempt, r + 1, delays =>
    match oracle attempt with
    | .ok resp => (.ok resp, delays)
    | .error e =>
      if isRateLimited e = true ∧ attempt < retryAttempts - 1 then
        retryLoop oracle (attempt + 1) r (delays ++ [backoffSeconds * 2 ^ attempt])
      else (.error e, delays)

/-- One model call with the full retry budget, as performed at the top of each
iteration of `OpenAIClient.query`. -/
def callWithRetry (oracle : Nat → Except ApiError ModelResponse) :
    Except ApiError ModelResponse × List Nat :=
  retryLoop oracle 0 retryAttempts []

/-- Models the `for iteration in range(max_iterations)` loop of
`OpenAIClient.query`, with `respond` the response obtained at each iteration
(the transcript bookkeeping and tool dispatch feed the next response and are
absorbed into the oracle).  `hasExec` is whether a `tool_executor` was
supplied; without one, a tool-calling response takes the `break` and the
sentinel is returned.  `tok` and `tools` accumulate `total_tokens` and
`tool_use_count`. -/
def queryLoop (respond : Nat → ModelResponse) (hasExec : Bool) :
    Nat → Nat → Nat → Nat → QueryResult
  | _, 0, tok, tools => maxIterSentinel tok tools
  | iter, r + 1, tok, tools =>
    let resp := respond iter
    let tok' := tok + resp.totalTokens
    match resp.toolCalls with
    | [] => ⟨resp.content.getD "", tok', tools, resp.finishReason⟩
    | _ :: _ =>
      let tools' := tools + resp.toolCalls.length
      if hasExec then queryLoop respond hasExec (iter + 1) r tok' tools'
      else maxIterSentinel tok' tools'

/-- Models `OpenAIClient.query` with iteration budget `maxIter`. -/
def query (respond : Nat → ModelResponse) (hasExec : Bool) (maxIter : Nat) : QueryResult :=
  queryLoop respond hasExec 0 maxIter 0 0

/-! ## ParallelExecutor and AgentTool -/

/-- The `AgentResult` record of `services/executor.py`; `agentIndex` is `-1` for the
synthesis result. -/
structure AgentResult where
  agentIndex : Int
  content : String
  toolUseCount : Nat
  tokens : Nat
  durationMs : Nat
deriving DecidableEq

/-- Models `ParallelExecutor.execute_parallel_tasks`: one task per index in
`range(numAgents)`; `run i` is the outcome of the `execute_agent_task` of
participant `i` (an `AgentResult`, or the text of an uncaught
exception, as collected by `asyncio.gather(..., return_exceptions=True)`).
A failed participant is converted in place into the degraded result. -/
def executeParallelTasks (run : Nat → Except String AgentResult) (numAgents : Nat) :
    List AgentResult :=
  (List.range numAgents).map fun i =>
    match run i with
    | .error msg =>
      { agentIndex := (i : Int), content := "Agent execution failed: " ++ msg,
        toolUseCount := 0, tokens := 0, durationMs := 0 }
    | .ok a => a

/-- Stable insertion into a list sorted by ascending `agentIndex`. -/
def insertByIdx (a : AgentResult) : List AgentResult → List AgentResult
  | [] => [a]
  | b :: bs => if b.agentIndex ≤ a.agentIndex then b :: insertByIdx a bs else a :: b :: bs

/-- Stable sort by ascending `agentIndex`: models
`sorted(agent_results, key=lambda r: r.agent_index)`. -/
def sortByIdx : List AgentResult → List AgentResult
  | [] => []
  | a :: as => insertByIdx a (sortByIdx as)

/-- The per-agent block of the synthesis prompt
(`== AGENT {i+1} RESPONSE ==`). -/
def agentHeader (r : AgentResult) : String :=
  "== AGENT " ++ toString (r.agentIndex + 1) ++ " RESPONSE ==\n" ++ r.content ++ "\n"

/-- The synthesis prompt built by `ParallelExecutor.synthesize_results` from
the index-sorted agent outputs (the fixed instruction text is abbreviated; no
claim depends on its wording). -/
def synthesisPrompt (originalTask : String) (sorted : List AgentResult) : String :=
  "Original task: " ++ originalTask ++ "\n\n"
    ++ String.intercalate "\n" (sorted.map agentHeader)
    ++ "\n\nSynthesize a comprehensive and cohesive response to the original task."

/-- Models `ParallelExecutor.synthesize_results`: one non-tool model turn
over the synthesis prompt (`synthOracle` maps the prompt to the returned
content and token count); the result carries `agent_index = -1` and
`tool_use_count = 0`. -/
def synthesizeResults (synthOracle : String → String × Nat) (originalTask : String)
    (agentResults : List AgentResult) : AgentResult :=
  let prompt := synthesisPrompt originalTask (sortByIdx agentResults)
  { agentIndex := -1, content := (synthOracle prompt).1, toolUseCount := 0,
    tokens := (synthOracle prompt).2, durationMs := 0 }

/-- The dictionary returned by `AgentTool.execute`. -/
structure AgentToolOutput where
  content : String
  toolUseCount : Nat
  tokens : Nat
  parallelAgents : Nat
  synthesis : Bool
deriving DecidableEq

/-- Models `AgentTool.execute` after the agent-config lookup: with
`parallel_count > 1` it fans out, synthesizes and totals the counts; with a
single agent it runs one task directly, where an uncaught exception
propagates (hence the `Except`). -/
def agentToolExecute (run : Nat → Except String AgentResult)
    (synthOracle : String → String × Nat) (prompt : String) (parallelCount : Nat) :
    Except String AgentToolOutput :=
  if 1 < parallelCount then
    let agentResults := executeParallelTasks run parallelCount
    let synthesisResult := synthesizeResults synthOracle prompt agentResults
    .ok { content := synthesisResult.content,
          toolUseCount := (agentResults.map AgentResult.toolUseCount).sum,
          tokens := (agentResults.map AgentResult.tokens).sum + synthesisResult.tokens,
          parallelAgents := parallelCount, synthesis := true }
  else
    match run 0 with
    | .error msg => .error msg
    | .ok r =>
      .ok { content := r.content, toolUseCount := r.toolUseCount, tokens := r.tokens,
            parallelAgents := 1, synthesis := false }

/-! ## Concrete instances used by witnesses and counterexamples -/

/-- A one-file filesystem: `/a.txt` containing `foo\nbar\n`, read at time 1. -/
def fsA : FS := ⟨fun q => if q = "/a.txt" then some ⟨"foo\nbar\n".data, 1⟩ else none, 5⟩

/-- Ledger that has read `/a.txt` at time 1. -/
def ledgerA : Ledger := fun q => if q = "/a.txt" then some 1 else none

/-- An empty ledger: nothing read this session. -/
def ledgerEmpty : Ledger := fun _ => none

/-- A filesystem holding only the notebook `/nb.ipynb` (modified at time 5). -/
def fsNotebook : FS := ⟨fun q => if q = "/nb.ipynb" then some ⟨"x".data, 5⟩ else none, 9⟩

/-- Ledger that has read `/nb.ipynb` at time 2 (stale: the file changed at 5). -/
def ledgerNotebook : Ledger := fun q => if q = "/nb.ipynb" then some 2 else none

/-- A filesystem holding `/z.txt` with modification time 0 (the epoch). -/
def fsZero : FS := ⟨fun q => if q = "/z.txt" then some ⟨"old".data, 0⟩ else none, 9⟩

/-- Ledger that has read `/z.txt` at its modification time 0 — a recorded but
falsy timestamp. -/
def ledgerZero : Ledger := fun q => if q = "/z.txt" then some 0 else none

/-- An empty filesystem with clock 7. -/
def fsEmpty : FS := ⟨fun _ => none, 7⟩

/-- A response consisting of one tool call. -/
def respToolCall : ModelResponse := ⟨some "", [⟨"call_1", "edit", "{}"⟩], 5, "tool_calls"⟩

/-- A plain final response with no tool calls. -/
def respFinal : ModelResponse := ⟨some "done", [], 3, "stop"⟩

/-- A rate-limited API exception (HTTP 429). -/
def errRateLimited : ApiError := ⟨some 429, "Rate limit exceeded, max RPM hit"⟩

/-- A fatal API exception (no status, unrelated text). -/
def errFatal : ApiError := ⟨none, "connection reset by peer"⟩

/-- Retry oracle: attempt 0 is rate-limited, attempt 1 succeeds. -/
def oracleRetryOnce : Nat → Except ApiError ModelResponse :=
  fun a => if a = 0 then .error errRateLimited else .ok respFinal

/-- Retry oracle: the first call fails fatally. -/
def oracleFatal : Nat → Except ApiError ModelResponse :=
  fun _ => .error errFatal

/-- Participant oracle: participant 1 raises, the others return a result
carrying their own index. -/
def runOneFailure : Nat → Except String AgentResult :=
  fun i => if i = 1 then .error "boom" else .ok ⟨(i : Int), "ok", 1, 2, 3⟩

/-- Synthesis oracle returning a fixed unified answer. -/
def synthFixed : String → String × Nat := fun _ => ("unified", 7)

/-! ## Helper lemmas about the string scanners -/

lemma isPref_iff (p : Str) : ∀ s : Str, isPref p s = true ↔ ∃ t, s = p ++ t := by
  induction p with
  | nil => intro s; simp [isPref]
  | cons a as ih =>
    intro s
    cases s with
    | nil => simp [isPref]
    | cons b bs =>
      simp only [isPref, Bool.and_eq_true, decide_eq_true_eq, List.cons_append]
      constructor
      · rintro ⟨rfl, h⟩
        obtain ⟨t, rfl⟩ := (ih bs).mp h
        exact ⟨t, rfl⟩
      · rintro ⟨t, ht⟩
        injection ht with h1 h2
        exact ⟨h1.symm, (ih bs).mpr ⟨t, h2⟩⟩

lemma hasOccur_iff_pos (pat : Str) (hp : pat ≠ []) (s : Str) :
    hasOccur pat s = true ↔ 0 < countOcc pat s := by
  induction s with
  | nil => simp [hasOccur, countOcc, countOccGo, hp]
  | cons c t ih =>
    by_cases hip : isPref pat (c :: t) = true
    · simp [hasOccur, hip, countOcc, countOccGo, hp]
    · simp only [hasOccur, hip, Bool.false_or]
      rw [ih]
      simp [countOcc, countOccGo, hip]

lemma replaceOnce_spec (pat repl : Str) : ∀ s, hasOccur pat s = true →
    ∃ a b, s = a ++ pat ++ b ∧ replaceOnce pat repl s = a ++ repl ++ b := by
  intro s
  induction s with
  | nil =>
    intro h
    simp only [hasOccur, decide_eq_true_eq] at h
    exact ⟨[], [], by simp [h], by simp [replaceOnce, h]⟩
  | cons c t ih =>
    intro h
    by_cases hpe : pat = []
    · exact ⟨[], c :: t, by simp [hpe], by simp [replaceOnce, hpe]⟩
    · by_cases hip : isPref pat (c :: t) = true
      · obtain ⟨u, hu⟩ := (isPref_iff pat (c :: t)).mp hip
        have hdrop : t.drop (pat.length - 1) = u := by
          cases pat with
          | nil => exact absurd rfl hpe
          | cons p ps =>
            injection hu with h1 h2
            simp [h2, List.drop_left]
        exact ⟨[], u, by simpa using hu, by simp [replaceOnce, hpe, hip, hdrop]⟩
      · have h' : hasOccur pat t = true := by
          simpa [hasOccur, hip] using h
        obtain ⟨a, b, hs, hr⟩ := ih h'
        exact ⟨c :: a, b, by simp [hs], by simp [replaceOnce, hpe, hip, hr]⟩

lemma flatten_splitLines : ∀ c : Str, (splitLines c).flatten = c := by
  intro c
  induction c with
  | nil => simp [splitLines]
  | cons ch t ih =>
    by_cases hnl : ch = '\n'
    · simp [splitLines, hnl, ih]
    · cases hsp : splitLines t with
      | nil =>
        have ht : t = [] := by simpa [hsp] using ih.symm
        simp [splitLines, hnl, hsp, ht]
      | cons l ls =>
        have ht : l ++ ls.flatten = t := by simpa [hsp] using ih
        simp [splitLines, hnl, hsp, ht]

lemma selectLines_none_none (c : Str) : selectLines c none none = c := by
  simp [selectLines, flatten_splitLines]

/-! ## Helper lemmas about the edit tool -/

/-- With a non-trivial pattern and an existing target, `validate_input`
reduces to the notebook / unread / staleness / occurrence checks. -/
lemma editValidate_eq_checks (cwd path : String) (old new_ : Str) (ledger : Ledger)
    (fs : FS) (file : File) (hne : old ≠ new_) (hnil : old ≠ [])
    (hf : fs.files (resolvePath cwd path) = some file) :
    editValidate cwd path old new_ ledger fs =
      (if isNotebook (resolvePath cwd path) = true then some notebookMsg
       else if (ledger (resolvePath cwd path)).getD 0 = 0 then some unreadMsg
       else if (ledger (resolvePath cwd path)).getD 0 < file.mtime then some staleMsg
       else if hasOccur old file.content = false then some notFoundMsg
       else if 1 < countOcc old file.content then
         some (ambiguousMsg (countOcc old file.content))
       else none) := by
  unfold editValidate
  simp [hne, hnil, hf]

/-- A failed validation short-circuits `EditTool.execute`: the error is
returned and neither the filesystem nor the ledger changes. -/
lemma editExecute_fail (cwd path : String) (old new_ : Str) (ledger : Ledger) (fs : FS)
    (err : String) (h : editValidate cwd path old new_ ledger fs = some err) :
    editExecute cwd path old new_ ledger fs = (⟨false, some err, none⟩, fs, ledger) := by
  unfold editExecute
  rw [h]

/-! ## Helper lemmas about the conversation loop and the retry loop -/

/-- When every response in the window carries a tool call and an executor is
present, the loop consumes the whole window and returns the sentinel with the
accumulated counts. -/
lemma queryLoop_all_toolcalls (respond : Nat → ModelResponse) :
    ∀ r iter tok tools, (∀ j, j < r → (respond (iter + j)).toolCalls ≠ []) →
      queryLoop respond true iter r tok tools =
        maxIterSentinel
          (tok + (((List.range r).map fun j => (respond (iter + j)).totalTokens).sum))
          (tools + (((List.range r).map fun j => (respond (iter + j)).toolCalls.length).sum)) := by
  intro r
  induction r with
  | zero => intro iter tok tools _; simp [queryLoop]
  | succ r ih =>
    intro iter tok tools h
    have h0 : (respond iter).toolCalls ≠ [] := by simpa using h 0 (by omega)
    rw [queryLoop]
    cases htc : (respond iter).toolCalls with
    | nil => exact absurd htc h0
    | cons x xs =>
      simp only [htc, if_pos rfl]
      rw [ih (iter + 1) _ _ (fun j hj => by
        have e : iter + 1 + j = iter + (j + 1) := by omega
        rw [e]
        exact h (j + 1) (by omega))]
      have hsh : ∀ j : Nat, iter + 1 + j = iter + (j + 1) := by omega
      simp [maxIterSentinel, List.range_succ_eq_map, List.map_map, Function.comp_def,
        hsh, htc]
      constructor <;> omega

/-- The loop only consults the responses of the window it may iterate over. -/
lemma queryLoop_window (respond respond' : Nat → ModelResponse) (hasExec : Bool) :
    ∀ r iter tok tools, (∀ j, j < r → respond' (iter + j) = respond (iter + j)) →
      queryLoop respond' hasExec iter r tok tools =
        queryLoop respond hasExec iter r tok tools := by
  intro r
  induction r with
  | zero => intro iter tok tools _; simp [queryLoop]
  | succ r ih =>
    intro iter tok tools h
    have h0 : respond' iter = respond iter := by simpa using h 0 (by omega)
    rw [queryLoop, queryLoop, h0]
    cases htc : (respond iter).toolCalls with
    | nil => rfl
    | cons x xs =>
      cases hasExec with
      | false => rfl
      | true =>
        simp only [if_pos rfl]
        exact ih (iter + 1) _ _ (fun j hj => by
          have e : iter + 1 + j = iter + (j + 1) := by omega
          rw [e]
          exact h (j + 1) (by omega))

/-- Stepping the retry loop over `j` consecutive rate-limited failures. -/
lemma retryLoop_skip (oracle : Nat → Except ApiError ModelResponse) :
    ∀ j attempt remaining delays,
      attempt + j ≤ retryAttempts - 1 → j ≤ remaining →
      (∀ a, attempt ≤ a → a < attempt + j →
        ∃ e, oracle a = .error e ∧ isRateLimited e = true) →
      retryLoop oracle attempt remaining delays =
        retryLoop oracle (attempt + j) (remaining - j)
          (delays ++ (List.range j).map fun i => backoffSeconds * 2 ^ (attempt + i)) := by
  intro j
  induction j with
  | zero => intro attempt remaining delays _ _ _; simp
  | succ j ih =>
    intro attempt remaining delays h1 h2 h3
    obtain ⟨r, rfl⟩ : ∃ r, remaining = r + 1 := ⟨remaining - 1, by omega⟩
    obtain ⟨e, he, hrl⟩ := h3 attempt le_rfl (by omega)
    have hlt : attempt < retryAttempts - 1 := by
      simp only [retryAttempts] at h1 ⊢
      omega
    have e1 : attempt + (j + 1) = attempt + 1 + j := by omega
    have e2 : r + 1 - (j + 1) = r - j := by omega
    have e3 : delays ++ (List.range (j + 1)).map (fun i => backoffSeconds * 2 ^ (attempt + i)) =
        (delays ++ [backoffSeconds * 2 ^ attempt]) ++
          (List.range j).map fun i => backoffSeconds * 2 ^ (attempt + 1 + i) := by
      have hsh : ∀ i : Nat, attempt + 1 + i = attempt + (i + 1) := by omega
      simp [List.range_succ_eq_map, List.map_map, Function.comp_def, hsh]
    rw [e1, e2, e3]
    rw [retryLoop]
    simp only [he]
    rw [if_pos ⟨hrl, hlt⟩]
    exact ih (attempt + 1) r _ (by omega) (by omega)
      (fun a ha hb => h3 a (by omega) (by omega))

/-! ## Claim theorems -/

/-- C1: with the earlier validation checks passing (`old_string` differs from
`new_string` and is non-empty, the target exists, is not a notebook, and has a
fresh nonzero ledger entry), `EditTool.execute` succeeds exactly when
`old_string` occurs exactly once in the content, and then the written content
is the original with that occurrence replaced by `new_string`; zero
occurrences fail with the not-found message and two or more occurrences fail
with the multiple-matches message, in both cases leaving filesystem and
ledger untouched. -/
theorem edit_single_occurrence_contract
    (cwd path : String) (old new_ : Str) (ledger : Ledger) (fs : FS) (file : File) (t : Nat)
    (hf : fs.files (resolvePath cwd path) = some file)
    (hne : old ≠ new_) (hnil : old ≠ [])
    (hnb : isNotebook (resolvePath cwd path) = false)
    (hl : ledger (resolvePath cwd path) = some t) (ht : t ≠ 0)
    (hfresh : file.mtime ≤ t) :
    (countOcc old file.content = 1 →
      ∃ a b, file.content = a ++ old ++ b ∧
        editExecute cwd path old new_ ledger fs =
          (⟨true, none, some (a ++ new_ ++ b)⟩,
            fs.write (resolvePath cwd path) (a ++ new_ ++ b),
            ledgerSet ledger (resolvePath cwd path) fs.now)) ∧
    (countOcc old file.content = 0 →
      editExecute cwd path old new_ ledger fs =
        (⟨false, some notFoundMsg, none⟩, fs, ledger)) ∧
    (2 ≤ countOcc old file.content →
      editExecute cwd path old new_ ledger fs =
        (⟨false, some (ambiguousMsg (countOcc old file.content)), none⟩, fs, ledger)) := by
  have hchecks := editValidate_eq_checks cwd path old new_ ledger fs file hne hnil hf
  refine ⟨?_, ?_, ?_⟩
  · intro h1
    have hocc : hasOccur old file.content = true :=
      (hasOccur_iff_pos old hnil file.content).mpr (by omega)
    have hv : editValidate cwd path old new_ ledger fs = none := by
      rw [hchecks]
      simp [hnb, hl, ht, hfresh, hocc, h1]
    obtain ⟨a, b, hs, hr⟩ := replaceOnce_spec old new_ file.content hocc
    refine ⟨a, b, hs, ?_⟩
    unfold editExecute
    rw [hv]
    simp [hf, hnil, hr]
  · intro h0
    have hocc : hasOccur old file.content = false := by
      cases hoc : hasOccur old file.content with
      | false => rfl
      | true =>
        have := (hasOccur_iff_pos old hnil file.content).mp hoc
        omega
    have hv : editValidate cwd path old new_ ledger fs = some notFoundMsg := by
      rw [hchecks]
      simp [hnb, hl, ht, hfresh, hocc]
    exact editExecute_fail cwd path old new_ ledger fs notFoundMsg hv
  · intro h2
    have hocc : hasOccur old file.content = true :=
      (hasOccur_iff_pos old hnil file.content).mpr (by omega)
    have h2' : 1 < countOcc old file.content := by omega
    have hv : editValidate cwd path old new_ ledger fs =
        some (ambiguousMsg (countOcc old file.content)) := by
      rw [hchecks]
      simp [hnb, hl, ht, hfresh, hocc, h2']
    exact editExecute_fail cwd path old new_ ledger fs _ hv

/-- Witness for C1: editing `/a.txt` (content `foo\nbar\n`, read at its
modification time) replacing the unique occurrence of `foo` by `baz`. -/
theorem edit_single_occurrence_contract_witness :
    ∃ a b, "foo\nbar\n".data = a ++ "foo".data ++ b ∧
      editExecute "/w" "/a.txt" "foo".data "baz".data ledgerA fsA =
        (⟨true, none, some (a ++ "baz".data ++ b)⟩,
          fsA.write (resolvePath "/w" "/a.txt") (a ++ "baz".data ++ b),
          ledgerSet ledgerA (resolvePath "/w" "/a.txt") fsA.now) :=
  (edit_single_occurrence_contract "/w" "/a.txt" "foo".data "baz".data ledgerA fsA
      ⟨"foo\nbar\n".data, 1⟩ 1 (by decide) (by decide) (by decide) (by decide)
      (by decide) (by decide) (by decide)).1 (by decide)

/-- C2 counterexample: `/nb.ipynb` exists and has no ledger entry, yet both
edit validation and write validation fail with the notebook message, not the
unread message (the notebook check runs first). -/
theorem unread_error_cex :
    fsNotebook.files "/nb.ipynb" = some ⟨"x".data, 5⟩ ∧
    ledgerEmpty "/nb.ipynb" = none ∧
    editValidate "/w" "/nb.ipynb" "a".data "b".data ledgerEmpty fsNotebook =
      some notebookMsg ∧
    (writeExecute "/w" "/nb.ipynb" "c".data ledgerEmpty fsNotebook).1.error =
      some notebookMsg ∧
    notebookMsg ≠ unreadMsg := by decide

/-- C2 (amended): for every existing non-notebook target with no ledger entry
(and, for edit, `old_string` different from `new_string` and non-empty), edit
validation and write validation fail with the unread message, regardless of
the file content. -/
theorem unread_guard (cwd path : String) (old new_ content_ : Str) (ledger : Ledger)
    (fs : FS) (file : File)
    (hf : fs.files (resolvePath cwd path) = some file)
    (hl : ledger (resolvePath cwd path) = none)
    (hnb : isNotebook (resolvePath cwd path) = false)
    (hne : old ≠ new_) (hnil : old ≠ []) :
    editValidate cwd path old new_ ledger fs = some unreadMsg ∧
    writeExecute cwd path content_ ledger fs =
      (⟨false, some unreadMsg, none⟩, fs, ledger) := by
  constructor
  · rw [editValidate_eq_checks cwd path old new_ ledger fs file hne hnil hf]
    simp [hnb, hl]
  · unfold writeExecute
    simp [hf, hnb, hl]

/-- Witness for C2 (amended): `/a.txt` exists but was never read. -/
theorem unread_guard_witness :
    editValidate "/w" "/a.txt" "foo".data "baz".data ledgerEmpty fsA = some unreadMsg ∧
    writeExecute "/w" "/a.txt" "new".data ledgerEmpty fsA =
      (⟨false, some unreadMsg, none⟩, fsA, ledgerEmpty) :=
  unread_guard "/w" "/a.txt" "foo".data "baz".data "new".data ledgerEmpty fsA
    ⟨"foo\nbar\n".data, 1⟩ (by decide) (by decide) (by decide) (by decide) (by decide)

/-- C3 counterexample: `/nb.ipynb` has a ledger entry (read at 2) and was
modified afterwards (mtime 5), yet both validations fail with the notebook
message, not the stale-read message (the notebook check runs first). -/
theorem stale_error_cex :
    fsNotebook.files "/nb.ipynb" = some ⟨"x".data, 5⟩ ∧
    ledgerNotebook "/nb.ipynb" = some 2 ∧
    editValidate "/w" "/nb.ipynb" "a".data "b".data ledgerNotebook fsNotebook =
      some notebookMsg ∧
    (writeExecute "/w" "/nb.ipynb" "c".data ledgerNotebook fsNotebook).1.error =
      some notebookMsg ∧
    notebookMsg ≠ staleMsg := by decide

/-- C3 (amended): for every existing non-notebook target whose nonzero ledger
timestamp is older than the on-disk modification time (and, for edit,
`old_string` different from `new_string` and non-empty), `EditTool.execute`
and `WriteTool.execute` fail with the stale-read message and apply no
mutation. -/
theorem stale_guard (cwd path : String) (old new_ content_ : Str) (ledger : Ledger)
    (fs : FS) (file : File) (t : Nat)
    (hf : fs.files (resolvePath cwd path) = some file)
    (hl : ledger (resolvePath cwd path) = some t) (ht : t ≠ 0)
    (hstale : t < file.mtime)
    (hnb : isNotebook (resolvePath cwd path) = false)
    (hne : old ≠ new_) (hnil : old ≠ []) :
    editExecute cwd path old new_ ledger fs =
      (⟨false, some staleMsg, none⟩, fs, ledger) ∧
    writeExecute cwd path content_ ledger fs =
      (⟨false, some staleMsg, none⟩, fs, ledger) := by
  constructor
  · have hv : editValidate cwd path old new_ ledger fs = some staleMsg := by
      rw [editValidate_eq_checks cwd path old new_ ledger fs file hne hnil hf]
      simp [hnb, hl, ht, hstale]
    exact editExecute_fail cwd path old new_ ledger fs staleMsg hv
  · unfold writeExecute
    simp [hf, hnb, hl, ht, hstale]

/-- Witness for C3 (amended): `/a.txt` read at time 1, then modified at
time 3. -/
theorem stale_guard_witness :
    editExecute "/w" "/a.txt" "foo".data "baz".data ledgerA
        ⟨fun q => if q = "/a.txt" then some ⟨"foo\nbar\n".data, 3⟩ else none, 5⟩ =
      (⟨false, some staleMsg, none⟩,
        ⟨fun q => if q = "/a.txt" then some ⟨"foo\nbar\n".data, 3⟩ else none, 5⟩, ledgerA) ∧
    writeExecute "/w" "/a.txt" "new".data ledgerA
        ⟨fun q => if q = "/a.txt" then some ⟨"foo\nbar\n".data, 3⟩ else none, 5⟩ =
      (⟨false, some staleMsg, none⟩,
        ⟨fun q => if q = "/a.txt" then some ⟨"foo\nbar\n".data, 3⟩ else none, 5⟩, ledgerA) :=
  stale_guard "/w" "/a.txt" "foo".data "baz".data "new".data ledgerA
    ⟨fun q => if q = "/a.txt" then some ⟨"foo\nbar\n".data, 3⟩ else none, 5⟩
    ⟨"foo\nbar\n".data, 3⟩ 1 (by decide) (by decide) (by decide) (by decide)
    (by decide) (by decide) (by decide)

/-- C7 counterexample: `/z.txt` exists, is not a notebook, has a ledger entry
(value 0, recorded from its epoch modification time) and has not been
modified since (mtime 0 does not exceed the entry), so by the claim the write
should replace the content — but Python truthiness treats the recorded 0.0
as unread and `WriteTool.execute` fails with the unread message. -/
theorem write_zero_timestamp_cex :
    fsZero.files "/z.txt" = some ⟨"old".data, 0⟩ ∧
    ledgerZero "/z.txt" = some 0 ∧
    isNotebook "/z.txt" = false ∧
    (writeExecute "/w" "/z.txt" "new".data ledgerZero fsZero).1 =
      ⟨false, some unreadMsg, none⟩ := by decide

/-- C7 (amended): `WriteTool.execute` on a missing target creates it with no
checks; on an existing target it fails for a notebook path, for a missing
**or zero (falsy)** ledger timestamp, and for a stale ledger timestamp, and
otherwise replaces the whole content and records the new modification time. -/
theorem write_validation_contract (cwd path : String) (content_ : Str)
    (ledger : Ledger) (fs : FS) :
    (fs.files (resolvePath cwd path) = none →
      writeExecute cwd path content_ ledger fs =
        (⟨true, none, some "create"⟩, fs.write (resolvePath cwd path) content_,
          ledgerSet ledger (resolvePath cwd path) fs.now)) ∧
    (∀ file, fs.files (resolvePath cwd path) = some file →
      (isNotebook (resolvePath cwd path) = true →
        writeExecute cwd path content_ ledger fs =
          (⟨false, some notebookMsg, none⟩, fs, ledger)) ∧
      (isNotebook (resolvePath cwd path) = false →
        (ledger (resolvePath cwd path)).getD 0 = 0 →
        writeExecute cwd path content_ ledger fs =
          (⟨false, some unreadMsg, none⟩, fs, ledger)) ∧
      (∀ t, isNotebook (resolvePath cwd path) = false →
        ledger (resolvePath cwd path) = some t → t ≠ 0 → t < file.mtime →
        writeExecute cwd path content_ ledger fs =
          (⟨false, some staleMsg, none⟩, fs, ledger)) ∧
      (∀ t, isNotebook (resolvePath cwd path) = false →
        ledger (resolvePath cwd path) = some t → t ≠ 0 → file.mtime ≤ t →
        writeExecute cwd path content_ ledger fs =
          (⟨true, none, some "update"⟩, fs.write (resolvePath cwd path) content_,
            ledgerSet ledger (resolvePath cwd path) fs.now))) := by
  refine ⟨?_, ?_⟩
  · intro h
    unfold writeExecute
    simp [h]
  · intro file hf
    refine ⟨?_, ?_, ?_, ?_⟩
    · intro hnb
      unfold writeExecute
      simp [hf, hnb]
    · intro hnb hz
      unfold writeExecute
      simp [hf, hnb, hz]
    · intro t hnb hl ht hst
      unfold writeExecute
      simp [hf, hnb, hl, ht, hst]
    · intro t hnb hl ht hfresh
      unfold writeExecute
      simp [hf, hnb, hl, ht, Nat.not_lt.mpr hfresh]

/-- Witness for C7 (amended): creating a fresh `/new.txt` and updating the
previously read `/a.txt`. -/
theorem write_validation_contract_witness :
    writeExecute "/w" "/new.txt" "hi".data ledgerEmpty fsEmpty =
      (⟨true, none, some "create"⟩, fsEmpty.write (resolvePath "/w" "/new.txt") "hi".data,
        ledgerSet ledgerEmpty (resolvePath "/w" "/new.txt") fsEmpty.now) ∧
    writeExecute "/w" "/a.txt" "hi".data ledgerA fsA =
      (⟨true, none, some "update"⟩, fsA.write (resolvePath "/w" "/a.txt") "hi".data,
        ledgerSet ledgerA (resolvePath "/w" "/a.txt") fsA.now) :=
  ⟨(write_validation_contract "/w" "/new.txt" "hi".data ledgerEmpty fsEmpty).1 (by decide),
   ((write_validation_contract "/w" "/a.txt" "hi".data ledgerA fsA).2
      ⟨"foo\nbar\n".data, 1⟩ (by decide)).2.2.2 1 (by decide) (by decide) (by decide)
      (by decide)⟩

/-- C8 counterexample: writing text to the image-extension path `/i.png`
succeeds, but the immediately following read takes the image branch and
returns a base64 payload — the text content is not returned. -/
theorem write_read_roundtrip_cex :
    (writeExecute "/w" "/i.png" "hi".data ledgerEmpty fsEmpty).1.success = true ∧
    (readExecute "/w" "/i.png" none none
        (writeExecute "/w" "/i.png" "hi".data ledgerEmpty fsEmpty).2.2
        (writeExecute "/w" "/i.png" "hi".data ledgerEmpty fsEmpty).2.1).1 =
      ⟨true, none, some "image", none⟩ ∧
    (readExecute "/w" "/i.png" none none
        (writeExecute "/w" "/i.png" "hi".data ledgerEmpty fsEmpty).2.2
        (writeExecute "/w" "/i.png" "hi".data ledgerEmpty fsEmpty).2.1).1.content ≠
      some "hi".data := by decide

/-- C8 (amended): for every successful write to a non-image path whose
content fits in the size limit of the read tool, the write records the new
modification time in the ledger, and an immediately following read succeeds
and returns exactly the written content. -/
theorem write_read_roundtrip (cwd path : String) (content_ : Str) (ledger : Ledger)
    (fs : FS)
    (himg : isImageFile (resolvePath cwd path) = false)
    (hsize : content_.length ≤ maxOutputSize)
    (hok : (writeExecute cwd path content_ ledger fs).1.success = true) :
    (writeExecute cwd path content_ ledger fs).2.1.files (resolvePath cwd path) =
      some ⟨content_, fs.now⟩ ∧
    (writeExecute cwd path content_ ledger fs).2.2 (resolvePath cwd path) =
      some fs.now ∧
    (readExecute cwd path none none (writeExecute cwd path content_ ledger fs).2.2
        (writeExecute cwd path content_ ledger fs).2.1).1 =
      ⟨true, none, some "text", some content_⟩ := by
  have hW : (writeExecute cwd path content_ ledger fs).2.1 =
        fs.write (resolvePath cwd path) content_ ∧
      (writeExecute cwd path content_ ledger fs).2.2 =
        ledgerSet ledger (resolvePath cwd path) fs.now := by
    unfold writeExecute at hok ⊢
    cases hfm : fs.files (resolvePath cwd path) with
    | none => simp [hfm]
    | some file =>
      simp only [hfm] at hok ⊢
      by_cases h1 : isNotebook (resolvePath cwd path) = true
      · simp [h1] at hok
      · by_cases h2 : (ledger (resolvePath cwd path)).getD 0 = 0
        · simp [h1, h2] at hok
        · by_cases h3 : (ledger (resolvePath cwd path)).getD 0 < file.mtime
          · simp [h1, h2, h3] at hok
          · simp [h1, h2, h3]
  obtain ⟨hfs, hld⟩ := hW
  have hfile : (writeExecute cwd path content_ ledger fs).2.1.files
      (resolvePath cwd path) = some ⟨content_, fs.now⟩ := by
    rw [hfs]; simp [FS.write]
  have hlg : (writeExecute cwd path content_ ledger fs).2.2 (resolvePath cwd path) =
      some fs.now := by
    rw [hld]; simp [ledgerSet]
  refine ⟨hfile, hlg, ?_⟩
  unfold readExecute
  rw [hfs, hld]
  have hns : ¬ maxOutputSize < content_.length := by omega
  simp [FS.write, himg, hns, selectLines_none_none]

/-- Witness for C8 (amended): write `hi` to `/t.txt`, then read it back. -/
theorem write_read_roundtrip_witness :
    (writeExecute "/w" "/t.txt" "hi".data ledgerEmpty fsEmpty).2.1.files
      (resolvePath "/w" "/t.txt") = some ⟨"hi".data, fsEmpty.now⟩ ∧
    (writeExecute "/w" "/t.txt" "hi".data ledgerEmpty fsEmpty).2.2
      (resolvePath "/w" "/t.txt") = some fsEmpty.now ∧
    (readExecute "/w" "/t.txt" none none
        (writeExecute "/w" "/t.txt" "hi".data ledgerEmpty fsEmpty).2.2
        (writeExecute "/w" "/t.txt" "hi".data ledgerEmpty fsEmpty).2.1).1 =
      ⟨true, none, some "text", some "hi".data⟩ :=
  write_read_roundtrip "/w" "/t.txt" "hi".data ledgerEmpty fsEmpty
    (by decide) (by decide) (by decide)

/-- C9: when edit validation fails, `EditTool.execute` returns a failure
carrying exactly that error message and performs no mutation: the filesystem
and every ledger entry are unchanged. -/
theorem edit_error_atomicity (cwd path : String) (old new_ : Str) (ledger : Ledger)
    (fs : FS) (err : String)
    (h : editValidate cwd path old new_ ledger fs = some err) :
    editExecute cwd path old new_ ledger fs = (⟨false, some err, none⟩, fs, ledger) :=
  editExecute_fail cwd path old new_ ledger fs err h

/-- Witness for C9: a no-op edit (`old_string = new_string`) fails validation
and leaves the state untouched. -/
theorem edit_error_atomicity_witness :
    editValidate "/w" "/a.txt" "x".data "x".data ledgerA fsA = some noopMsg ∧
    editExecute "/w" "/a.txt" "x".data "x".data ledgerA fsA =
      (⟨false, some noopMsg, none⟩, fsA, ledgerA) :=
  ⟨by decide,
   edit_error_atomicity "/w" "/a.txt" "x".data "x".data ledgerA fsA noopMsg (by decide)⟩

/-- C10: an edit or write on `path` never touches the ledger entry of any
other path — whether it succeeds or fails, at most the entry of the resolved
target is written. -/
theorem mutation_ledger_frame (cwd path : String) (old new_ content_ : Str)
    (ledger : Ledger) (fs : FS) (q : String) (hq : q ≠ resolvePath cwd path) :
    (editExecute cwd path old new_ ledger fs).2.2 q = ledger q ∧
    (writeExecute cwd path content_ ledger fs).2.2 q = ledger q := by
  constructor
  · unfold editExecute
    cases h : editValidate cwd path old new_ ledger fs with
    | some err => rfl
    | none => simp [ledgerSet, hq]
  · unfold writeExecute
    cases h : fs.files (resolvePath cwd path) with
    | none => simp [h, ledgerSet, hq]
    | some file =>
      by_cases h1 : isNotebook (resolvePath cwd path) = true <;>
        by_cases h2 : (ledger (resolvePath cwd path)).getD 0 = 0 <;>
        by_cases h3 : (ledger (resolvePath cwd path)).getD 0 < file.mtime <;>
        simp [h, h1, h2, h3, ledgerSet, hq]

/-- C4: `OpenAIClient.query` performs at most `max_iterations` iterations —
its result depends only on the first `max_iterations` responses — and always
returns; when every one of those responses carries at least one tool call
(with an executor present) it returns, as an ordinary value, the sentinel
result with the accumulated token and tool-use counts and finish reason
`max_iterations`. -/
theorem query_iteration_bound (respond respond' : Nat → ModelResponse) (hasExec : Bool)
    (maxIter : Nat) (hiter : 1 ≤ maxIter)
    (hall : ∀ i, i < maxIter → (respond i).toolCalls ≠ [])
    (hagree : ∀ i, i < maxIter → respond' i = respond i) :
    query respond true maxIter =
      { content := "Maximum tool call iterations reached",
        totalTokens := ((List.range maxIter).map fun i => (respond i).totalTokens).sum,
        toolUseCount := ((List.range maxIter).map fun i => (respond i).toolCalls.length).sum,
        finishReason := "max_iterations" } ∧
    query respond' hasExec maxIter = query respond hasExec maxIter := by
  constructor
  · have h := queryLoop_all_toolcalls respond maxIter 0 0 0
      (fun j hj => by simpa using hall j hj)
    simpa [query, maxIterSentinel] using h
  · exact queryLoop_window respond respond' hasExec maxIter 0 0 0
      (fun j hj => by simpa using hagree j hj)

/-- Witness for C4: two iterations of a constantly tool-calling model. -/
theorem query_iteration_bound_witness :
    query (fun _ => respToolCall) true 2 =
      { content := "Maximum tool call iterations reached",
        totalTokens := ((List.range 2).map fun i =>
          ((fun _ => respToolCall) i : ModelResponse).totalTokens).sum,
        toolUseCount := ((List.range 2).map fun i =>
          ((fun _ => respToolCall) i : ModelResponse).toolCalls.length).sum,
        finishReason := "max_iterations" } ∧
    query (fun _ => respToolCall) true 2 = query (fun _ => respToolCall) true 2 :=
  query_iteration_bound (fun _ => respToolCall) (fun _ => respToolCall) true 2
    (by omega) (fun i _ => by simp [respToolCall]) (fun i _ => rfl)

/-- C5: a model-call failure classified as rate-limited (status 429 or
message text containing `rate limit` / `max rpm` case-insensitively) is
retried with exponentially growing delays (base 2 seconds, doubling each
attempt) for up to 10 attempts, after which the last exception propagates;
a failure not so classified propagates immediately with no retry. -/
theorem rate_limit_retry_policy (oracle : Nat → Except ApiError ModelResponse) :
    (∀ e, oracle 0 = .error e → isRateLimited e = false →
      callWithRetry oracle = (.error e, [])) ∧
    (∀ k resp, k < retryAttempts → oracle k = .ok resp →
      (∀ a, a < k → ∃ e, oracle a = .error e ∧ isRateLimited e = true) →
      callWithRetry oracle =
        (.ok resp, (List.range k).map fun a => backoffSeconds * 2 ^ a)) ∧
    ((∀ a, a < retryAttempts → ∃ e, oracle a = .error e ∧ isRateLimited e = true) →
      ∃ elast, oracle (retryAttempts - 1) = .error elast ∧
        callWithRetry oracle =
          (.error elast,
            (List.range (retryAttempts - 1)).map fun a => backoffSeconds * 2 ^ a)) := by
  refine ⟨?_, ?_, ?_⟩
  · intro e h0 hnr
    unfold callWithRetry retryAttempts
    rw [show (10 : Nat) = 9 + 1 from rfl, retryLoop]
    simp only [h0]
    rw [if_neg (by simp [hnr])]
  · intro k resp hk hok hrl
    have hskip := retryLoop_skip oracle k 0 retryAttempts []
      (by simp only [retryAttempts] at hk ⊢; omega) (by omega)
      (fun a _ hb => hrl a (by omega))
    unfold callWithRetry
    rw [hskip]
    obtain ⟨m, hm⟩ : ∃ m, retryAttempts - k = m + 1 := by
      simp only [retryAttempts] at hk ⊢
      exact ⟨retryAttempts - k - 1, by simp [retryAttempts]; omega⟩
    rw [hm, retryLoop]
    simp only [Nat.zero_add, hok, List.nil_append]
  · intro hrl
    obtain ⟨elast, he, hre⟩ := hrl (retryAttempts - 1) (by simp [retryAttempts])
    refine ⟨elast, he, ?_⟩
    have hskip := retryLoop_skip oracle (retryAttempts - 1) 0 retryAttempts []
      (by simp [retryAttempts]) (by simp [retryAttempts])
      (fun a _ hb => hrl a (by simp only [retryAttempts] at hb ⊢; omega))
    unfold callWithRetry
    rw [hskip]
    rw [show retryAttempts - (retryAttempts - 1) = 0 + 1 from by simp [retryAttempts]]
    rw [retryLoop]
    simp only [Nat.zero_add, he, List.nil_append]
    rw [if_neg (by simp [retryAttempts])]

/-- Witness for C5: one rate-limited failure then success (one 2-second
delay), and a fatal failure propagating with no delay. -/
theorem rate_limit_retry_policy_witness :
    callWithRetry oracleRetryOnce =
      (.ok respFinal, (List.range 1).map fun a => backoffSeconds * 2 ^ a) ∧
    callWithRetry oracleFatal = (.error errFatal, []) :=
  ⟨(rate_limit_retry_policy oracleRetryOnce).2.1 1 respFinal (by decide) rfl
      (fun a ha => ⟨errRateLimited, by
        have : a = 0 := by omega
        subst this
        exact ⟨rfl, by decide⟩⟩),
   (rate_limit_retry_policy oracleFatal).1 errFatal rfl (by decide)⟩

/-- C6: the fan-out returns exactly `N` results, one per participant in
agent-index order; a participant that raises is converted in place into a
degraded result whose content is the failure description and whose tool-use
count is 0; and the fan-out always proceeds to synthesis, regardless of
which participants failed. -/
theorem parallel_fanout_tolerates_failures (run : Nat → Except String AgentResult)
    (synthOracle : String → String × Nat) (task : String) (N : Nat)
    (hN : 1 ≤ N) (hidx : ∀ i a, run i = .ok a → a.agentIndex = (i : Int)) :
    (executeParallelTasks run N).length = N ∧
    (∀ i, i < N → (executeParallelTasks run N)[i]? =
      some (match run i with
        | .error msg =>
          { agentIndex := (i : Int), content := "Agent execution failed: " ++ msg,
            toolUseCount := 0, tokens := 0, durationMs := 0 }
        | .ok a => a)) ∧
    (∀ i, i < N → ∃ r, (executeParallelTasks run N)[i]? = some r ∧
      r.agentIndex = (i : Int)) ∧
    (1 < N → agentToolExecute run synthOracle task N =
      .ok { content :=
              (synthesizeResults synthOracle task (executeParallelTasks run N)).content,
            toolUseCount := ((executeParallelTasks run N).map AgentResult.toolUseCount).sum,
            tokens := ((executeParallelTasks run N).map AgentResult.tokens).sum
              + (synthesizeResults synthOracle task (executeParallelTasks run N)).tokens,
            parallelAgents := N, synthesis := true }) := by
  have hget : ∀ i, i < N → (executeParallelTasks run N)[i]? =
      some (match run i with
        | .error msg =>
          { agentIndex := (i : Int), content := "Agent execution failed: " ++ msg,
            toolUseCount := 0, tokens := 0, durationMs := 0 }
        | .ok a => a) := by
    intro i hi
    unfold executeParallelTasks
    rw [List.getElem?_map, List.getElem?_range hi]
    rfl
  refine ⟨by simp [executeParallelTasks], hget, ?_, ?_⟩
  · intro i hi
    refine ⟨_, hget i hi, ?_⟩
    cases hr : run i with
    | error msg => rfl
    | ok a => exact hidx i a hr
  · intro h1
    unfold agentToolExecute
    rw [if_pos h1]

/-- Witness for C6: three participants, of which participant 1 raises. -/
theorem parallel_fanout_tolerates_failures_witness :
    (executeParallelTasks runOneFailure 3).length = 3 ∧
    (executeParallelTasks runOneFailure 3)[1]? =
      some { agentIndex := 1, content := "Agent execution failed: boom",
             toolUseCount := 0, tokens := 0, durationMs := 0 } ∧
    agentToolExecute runOneFailure synthFixed "task" 3 =
      .ok { content :=
              (synthesizeResults synthFixed "task" (executeParallelTasks runOneFailure 3)).content,
            toolUseCount :=
              ((executeParallelTasks runOneFailure 3).map AgentResult.toolUseCount).sum,
            tokens := ((executeParallelTasks runOneFailure 3).map AgentResult.tokens).sum
              + (synthesizeResults synthFixed "task" (executeParallelTasks runOneFailure 3)).tokens,
            parallelAgents := 3, synthesis := true } := by
  have h := parallel_fanout_tolerates_failures runOneFailure synthFixed "task" 3
    (by omega)
    (by
      intro i a ha
      unfold runOneFailure at ha
      split at ha
      · exact absurd ha (by simp)
      · injection ha with ha'
        rw [← ha'])
  refine ⟨h.1, ?_, h.2.2.2 (by omega)⟩
  have h1 := h.2.1 1 (by omega)
  simpa [runOneFailure] using h1

/-- Witness for C10: a successful edit of `/a.txt` leaves the ledger entry of
`/other` unchanged. -/
theorem mutation_ledger_frame_witness :
    (editExecute "/w" "/a.txt" "foo".data "baz".data ledgerA fsA).2.2 "/other" =
      ledgerA "/other" ∧
    (writeExecute "/w" "/a.txt" "new".data ledgerA fsA).2.2 "/other" =
      ledgerA "/other" :=
  mutation_ledger_frame "/w" "/a.txt" "foo".data "baz".data "new".data ledgerA fsA
    "/other" (by decide)

end ClaudeCodePython
